import Mathlib

/-!
Verification of the filter-and-summarize pipeline of the Streamlit sales
dashboard (`streamlit_dann_app.py`).

The dashboard loads a tabular dataset (an uploaded CSV or a fixed built-in
sample table), filters its rows by a day selection and, when the category
column is present, by a category selection, and computes summary statistics
(two column totals, two column means, and a per-category group-by sum used
by the pie chart).  The development below is a shallow embedding of that
pipeline:

* `Row` / `Dataset` model the typed dataframe with columns
  Hari (day), Kategori (category), Penjualan (salesCount),
  Pengunjung (visitorCount); the `hasKategori` flag records whether the
  optional Kategori column is present in the schema.
* `load_sample_data` / `resolve` model the sample-data fallback
  (lines 38-54 of the source).
* `uniqueVals` models `Series.unique().tolist()` (first-occurrence order),
  `filteredRows` the two `isin` filters (lines 59-71), `seriesSum` /
  `seriesMean` the pandas `sum` / `mean` reductions (lines 89-92; the mean
  of an empty series is NaN, modelled as `none`), and `pieDf` the
  `groupby("Kategori")["Penjualan"].sum()` (line 138; pandas `groupby`
  sorts group keys ascending by default).
* `to_csv` / `read_csv` model the CSV download of the filtered rows
  (line 76) and re-parsing it (line 50).
* `RawFrame` / `runRaw` model the same script over an untyped uploaded
  frame whose header may lack columns, so that the `KeyError` raised by a
  missing-column access (distinct from a pandas parse error) is visible.
-/

namespace StreamlitDann

/-- A row of the dashboard's dataframe: day, category, sales count,
visitor count.  (Column names as in the source: Hari, Kategori,
Penjualan, Pengunjung.) -/
structure Row where
  hari : String
  kategori : String
  penjualan : Int
  pengunjung : Int
deriving DecidableEq

/-- A dataset: an ordered sequence of rows together with the fact whether
the optional Kategori column is present in the schema. -/
structure Dataset where
  hasKategori : Bool
  rows : List Row
deriving DecidableEq

/-- The built-in sample table of `load_sample_data` (source lines 38-46). -/
def load_sample_data : Dataset :=
  ⟨true,
   [⟨"Senin", "Makanan", 120, 50⟩,
    ⟨"Selasa", "Minuman", 150, 60⟩,
    ⟨"Rabu", "Makanan", 90, 30⟩,
    ⟨"Kamis", "Minuman", 170, 80⟩,
    ⟨"Jumat", "Makanan", 200, 90⟩,
    ⟨"Sabtu", "Minuman", 220, 120⟩,
    ⟨"Minggu", "Makanan", 180, 100⟩]⟩

/-- Data-source resolution (source lines 49-54): use the uploaded dataset
when present, otherwise the built-in sample table. -/
def resolve (uploaded : Option Dataset) : Dataset :=
  match uploaded with
  | some d => d
  | none => load_sample_data

/-- Helper for `uniqueVals`: distinct values in first-occurrence order,
skipping values already seen. -/
def uniqueAux (seen : List String) : List String → List String
  | [] => []
  | x :: xs =>
    if x ∈ seen then uniqueAux seen xs else x :: uniqueAux (x :: seen) xs

/-- `Series.unique().tolist()`: the distinct values of a list in order of
first occurrence (source lines 59 and 63). -/
def uniqueVals (l : List String) : List String := uniqueAux [] l

/-- `hari_list` (source line 59): the distinct day values, also the default
day selection of the multiselect (line 60). -/
def hariList (d : Dataset) : List String := uniqueVals (d.rows.map (·.hari))

/-- `kategori_list` (source line 63): the distinct category values, also the
default category selection of the multiselect (line 64). -/
def kategoriList (d : Dataset) : List String :=
  uniqueVals (d.rows.map (·.kategori))

/-- `filtered_df` (source lines 69-71): keep the rows whose Hari value is in
the day selection, then, when the Kategori column is present, keep those
whose Kategori value is in the category selection. -/
def filteredRows (d : Dataset) (selHari selKat : List String) : List Row :=
  let f1 := d.rows.filter (fun r => decide (r.hari ∈ selHari))
  if d.hasKategori then f1.filter (fun r => decide (r.kategori ∈ selKat))
  else f1

/-- `Series.sum()`: pandas reduces a series by folding addition over its
values, starting from zero; the sum of an empty series is 0. -/
def seriesSum (l : List Int) : Int := l.foldl (· + ·) 0

/-- `Series.mean()`: sum divided by length; the mean of an empty series is
NaN, modelled as `none`. -/
def seriesMean (l : List Int) : Option ℚ :=
  if l.length = 0 then none else some ((seriesSum l : ℚ) / (l.length : ℚ))

/-- `total_sales` (source line 89). -/
def total_sales (rows : List Row) : Int := seriesSum (rows.map (·.penjualan))

/-- `total_visitors` (source line 90). -/
def total_visitors (rows : List Row) : Int :=
  seriesSum (rows.map (·.pengunjung))

/-- `avg_sales` (source line 91). -/
def avg_sales (rows : List Row) : Option ℚ :=
  seriesMean (rows.map (·.penjualan))

/-- `avg_visitors` (source line 92). -/
def avg_visitors (rows : List Row) : Option ℚ :=
  seriesMean (rows.map (·.pengunjung))

/-- Lexicographic comparison of two character lists by code point; this is
the string order pandas uses when sorting group keys. -/
def charListLt : List Char → List Char → Bool
  | [], [] => false
  | [], _ :: _ => true
  | _ :: _, [] => false
  | a :: as, b :: bs =>
    if a < b then true
    else if b < a then false
    else charListLt as bs

/-- The corresponding non-strict order on strings. -/
def strLe (a b : String) : Prop := charListLt b.data a.data = false

instance : DecidableRel strLe :=
  fun a b => instDecidableEqBool (charListLt b.data a.data) false

/-- `pie_df` (source line 138):
`filtered_df.groupby("Kategori")["Penjualan"].sum()`.  Pandas `groupby`
collects the distinct key values, sorts them ascending (its default
`sort=True`), and sums the aggregated column per key. -/
def pieDf (rows : List Row) : List (String × Int) :=
  (List.insertionSort strLe (uniqueVals (rows.map (·.kategori)))).map
    (fun k =>
      (k, seriesSum ((rows.filter (fun r => decide (r.kategori = k))).map
        (·.penjualan))))

/-- The data the script derives from the loaded dataset and the current
widget selection on one rerun: the filtered rows, the four KPI scalars, and
the pie-chart grouping (present only when the Kategori column is). -/
structure Output where
  filtered : List Row
  totalSales : Int
  totalVisitors : Int
  avgSales : Option ℚ
  avgVisitors : Option ℚ
  pie : Option (List (String × Int))
deriving DecidableEq

/-- One full top-to-bottom rerun of the script body (source lines 69-143) on
a loaded dataset and a (day selection, category selection) pair. -/
def runPipeline (d : Dataset) (sel : List String × List String) : Output :=
  let rows := filteredRows d sel.1 sel.2
  ⟨rows, total_sales rows, total_visitors rows, avg_sales rows,
   avg_visitors rows, if d.hasKategori then some (pieDf rows) else none⟩

/-- A session: the uploaded file is fixed, and every user interaction
reruns the whole script from the top on the dataset resolved from that
upload (Streamlit's execution model). -/
def session (uploaded : Option Dataset)
    (sels : List (List String × List String)) : List Output :=
  sels.map (fun s => runPipeline (resolve uploaded) s)

/-! CSV download and re-parsing (source lines 76 and 50), modelled at the
character level.  `to_csv` renders `filtered_df.to_csv(index=False)`:
a header line followed by one comma-separated line per row, each line
terminated by a newline.  `read_csv` models `pd.read_csv` on such text:
split into lines, check the header, split each line at commas, and parse
the two numeric columns as integers. -/

/-- The header line of the dashboard's four-column schema. -/
def csvHeader : List Char := "Hari,Kategori,Penjualan,Pengunjung".data

/-- Decimal rendering of an integer, as `to_csv` prints an int64 cell. -/
def renderInt : Int → List Char
  | .ofNat n => Nat.toDigits 10 n
  | .negSucc n => '-' :: Nat.toDigits 10 (n + 1)

/-- One CSV line for a row. -/
def rowLine (r : Row) : List Char :=
  r.hari.data ++ ',' :: r.kategori.data ++ ',' :: renderInt r.penjualan ++
    ',' :: renderInt r.pengunjung

/-- The data lines of the CSV text, each ended by a newline. -/
def toCsvBody : List Row → List Char
  | [] => []
  | r :: rs => rowLine r ++ '\n' :: toCsvBody rs

/-- `filtered_df.to_csv(index=False)` (source line 76). -/
def to_csv (rows : List Row) : String :=
  ⟨csvHeader ++ '\n' :: toCsvBody rows⟩

/-- Split a character list at every occurrence of the separator. -/
def splitOnChar (c : Char) : List Char → List (List Char)
  | [] => [[]]
  | x :: xs =>
    if x = c then [] :: splitOnChar c xs
    else
      match splitOnChar c xs with
      | [] => [[x]]
      | y :: ys => (x :: y) :: ys

/-- The numeric value of a decimal digit character. -/
def digitVal (ch : Char) : Option Nat :=
  if ch.isDigit then some (ch.toNat - 48) else none

/-- Parse a nonempty run of decimal digits. -/
def parseNatChars (l : List Char) : Option Nat :=
  match l with
  | [] => none
  | _ =>
    l.foldl (fun acc ch => acc.bind fun a => (digitVal ch).map fun d =>
      a * 10 + d) (some 0)

/-- Parse an optionally-signed decimal integer. -/
def parseIntChars : List Char → Option Int
  | '-' :: rest => (parseNatChars rest).map fun n => -(n : Int)
  | l => (parseNatChars l).map fun n => (n : Int)

/-- Parse one CSV data line into a row: four comma-separated fields, the
last two numeric. -/
def parseLine (l : List Char) : Option Row :=
  match splitOnChar ',' l with
  | [h, k, p, g] =>
    (parseIntChars p).bind fun pv => (parseIntChars g).map fun gv =>
      ⟨⟨h⟩, ⟨k⟩, pv, gv⟩
  | _ => none

/-- Parse the data lines: the list always ends with the empty fragment left
by the final newline. -/
def parseLines : List (List Char) → Option (List Row)
  | [] => none
  | [l] => if l = [] then some [] else none
  | l :: l2 :: ls =>
    (parseLine l).bind fun r => (parseLines (l2 :: ls)).map fun rs => r :: rs

/-- `pd.read_csv` (source line 50) on four-column CSV text. -/
def read_csv (s : String) : Option (List Row) :=
  match splitOnChar '\n' s.data with
  | [] => none
  | h :: rest => if h = csvHeader then parseLines rest else none

/-- A row survives a CSV round trip and its rendered line contains no
newline. -/
def rowOk (r : Row) : Prop :=
  parseLine (rowLine r) = some r ∧ '\n' ∉ rowLine r

instance (r : Row) : Decidable (rowOk r) :=
  inferInstanceAs (Decidable (parseLine (rowLine r) = some r ∧
    '\n' ∉ rowLine r))

/-! The untyped view of an uploaded dataframe, for the missing-column
behaviour.  A `RawFrame` is a header (the column names, in order) and the
cell rows; a column access `df["c"]` looks the name up in the header and
raises `KeyError("c")` when it is absent — a failure distinct from the
`ParseError` that `pd.read_csv` raises on malformed text, and from the
`TypeError` a numeric reduction raises on non-numeric cells. -/

/-- A cell of an uploaded frame: a string or an integer. -/
inductive CellValue where
  | s (v : String)
  | n (v : Int)
deriving DecidableEq

/-- An uploaded dataframe: column names plus cell rows. -/
structure RawFrame where
  header : List String
  cells : List (List CellValue)
deriving DecidableEq

/-- The failures the script can surface: a missing-column `KeyError`, a
`ParseError` from CSV parsing, a `TypeError` from summing non-numbers. -/
inductive AppError where
  | keyError (c : String)
  | parseError
  | typeError
deriving DecidableEq

/-- Position of a column name in a header. -/
def colIdx : List String → String → Option Nat
  | [], _ => none
  | h :: t, c => if h = c then some 0 else (colIdx t c).map (· + 1)

/-- The cell of a row at a column position. -/
def getCell (row : List CellValue) (i : Nat) : CellValue :=
  row.getD i (.s "")

/-- `df["c"]`: the column's values, or `KeyError` when the name is absent
(source lines 59, 89, 90). -/
def getColVals (f : RawFrame) (c : String) :
    Except AppError (List CellValue) :=
  match colIdx f.header c with
  | none => .error (.keyError c)
  | some i => .ok (f.cells.map fun r => getCell r i)

/-- `Series.isin(sel)` on one cell against a list of selected strings. -/
def cellInSel (v : CellValue) (sel : List String) : Bool :=
  match v with
  | .s x => decide (x ∈ sel)
  | .n _ => false

/-- `df[df["c"].isin(sel)]` (source lines 69 and 71). -/
def filterFrame (f : RawFrame) (c : String) (sel : List String) :
    Except AppError RawFrame :=
  match colIdx f.header c with
  | none => .error (.keyError c)
  | some i => .ok ⟨f.header, f.cells.filter fun r => cellInSel (getCell r i) sel⟩

/-- A cell as an integer, when it is one. -/
def cellInt : CellValue → Option Int
  | .n v => some v
  | .s _ => none

/-- `Series.sum()` over raw cells; non-numeric cells make the numeric
reduction fail. -/
def sumColE (l : List CellValue) : Except AppError Int :=
  match l.mapM cellInt with
  | some xs => .ok (seriesSum xs)
  | none => .error .typeError

/-- `Series.mean()` over raw cells; the mean of an empty column is NaN
(`none`). -/
def meanColE (l : List CellValue) : Except AppError (Option ℚ) :=
  (sumColE l).map fun s =>
    if l.length = 0 then none else some ((s : ℚ) / (l.length : ℚ))

/-- String form of a group key, as pandas labels the groups. -/
def cellKey : CellValue → String
  | .s x => x
  | .n v => toString v

/-- `groupby("Kategori")["Penjualan"].sum()` on a raw frame
(source line 138). -/
def pieRaw (f : RawFrame) : Except AppError (List (String × Int)) :=
  match colIdx f.header "Kategori", colIdx f.header "Penjualan" with
  | none, _ => .error (.keyError "Kategori")
  | some _, none => .error (.keyError "Penjualan")
  | some ki, some pj =>
    match f.cells.mapM (fun r => (cellInt (getCell r pj)).map fun v =>
        (cellKey (getCell r ki), v)) with
    | none => .error .typeError
    | some pairs =>
      .ok ((List.insertionSort strLe (uniqueVals (pairs.map Prod.fst))).map
        fun k =>
          (k, seriesSum ((pairs.filter fun q => decide (q.1 = k)).map
            Prod.snd)))

/-- What one rerun of the script computes from an uploaded frame. -/
structure RawOut where
  filtered : RawFrame
  totalSales : Int
  totalVisitors : Int
  avgSales : Option ℚ
  avgVisitors : Option ℚ
  pie : Option (List (String × Int))
deriving DecidableEq

/-- One rerun of the script body over an uploaded frame whose header may
lack columns, in source order: the `hari_list` access (line 59), the Hari
filter (line 69), the optional Kategori filter (lines 70-71), the four KPI
reductions (lines 89-92), and the pie grouping when the Kategori column is
present (lines 136-138).  The first failing step aborts the rerun with its
error, exactly as the script stops at the first raised exception. -/
def runRaw (f : RawFrame) (selHari selKat : List String) :
    Except AppError RawOut := do
  let _hariVals ← getColVals f "Hari"
  let f1 ← filterFrame f "Hari" selHari
  let filtered ←
    if "Kategori" ∈ f.header then filterFrame f1 "Kategori" selKat
    else .ok f1
  let pCol ← getColVals filtered "Penjualan"
  let gCol ← getColVals filtered "Pengunjung"
  let ts ← sumColE pCol
  let tv ← sumColE gCol
  let avs ← meanColE pCol
  let avv ← meanColE gCol
  let pie ←
    if "Kategori" ∈ f.header then (pieRaw filtered).map some
    else .ok none
  return ⟨filtered, ts, tv, avs, avv, pie⟩

/-- A two-row dataset whose category of first occurrence ("Minuman") is not
the alphabetically first category: it separates insertion order from sorted
order of the group keys. -/
def swappedSample : Dataset :=
  ⟨true, [⟨"Senin", "Minuman", 120, 50⟩, ⟨"Selasa", "Makanan", 150, 60⟩]⟩

/-!  Helper lemmas about the embedded pandas primitives. -/

theorem charListLt_cons_iff (a b : Char) (as bs : List Char) :
    charListLt (a :: as) (b :: bs) = true ↔
      a < b ∨ (a = b ∧ charListLt as bs = true) := by
  simp only [charListLt]
  by_cases hab : a < b
  · simp [hab]
  · by_cases hba : b < a
    · rw [if_neg hab, if_pos hba]
      constructor
      · intro h; exact Bool.noConfusion h
      · rintro (h | ⟨rfl, _⟩)
        · exact absurd h hab
        · exact absurd hba (lt_irrefl a)
    · have heq : a = b := le_antisymm (not_lt.mp hba) (not_lt.mp hab)
      subst heq
      simp [hab]

theorem charListLt_asymm : ∀ as bs : List Char,
    charListLt as bs = true → charListLt bs as = false
  | [], [], h => by simp [charListLt] at h
  | [], _ :: _, _ => rfl
  | _ :: _, [], h => by simp [charListLt] at h
  | a :: as, b :: bs, h => by
    rw [charListLt_cons_iff] at h
    cases hlt : charListLt (b :: bs) (a :: as)
    · rfl
    · exfalso
      rw [charListLt_cons_iff] at hlt
      rcases h with h | ⟨rfl, h⟩
      · rcases hlt with h2 | ⟨rfl, _⟩
        · exact absurd h2 (lt_asymm h)
        · exact lt_irrefl _ h
      · rcases hlt with h2 | ⟨_, h2⟩
        · exact lt_irrefl _ h2
        · rw [charListLt_asymm as bs h] at h2
          exact Bool.noConfusion h2

theorem charListLt_trans : ∀ as bs cs : List Char,
    charListLt as bs = true → charListLt bs cs = true →
      charListLt as cs = true
  | [], [], _, h1, _ => by simp [charListLt] at h1
  | [], _ :: _, [], _, h2 => by simp [charListLt] at h2
  | [], _ :: _, _ :: _, _, _ => rfl
  | _ :: _, [], _, h1, _ => by simp [charListLt] at h1
  | _ :: _, _ :: _, [], _, h2 => by simp [charListLt] at h2
  | a :: as, b :: bs, c :: cs, h1, h2 => by
    rw [charListLt_cons_iff] at h1 h2 ⊢
    rcases h1 with h1 | ⟨rfl, h1⟩
    · rcases h2 with h2 | ⟨rfl, h2⟩
      · exact Or.inl (lt_trans h1 h2)
      · exact Or.inl h1
    · rcases h2 with h2 | ⟨rfl, h2⟩
      · exact Or.inl h2
      · exact Or.inr ⟨rfl, charListLt_trans as bs cs h1 h2⟩

theorem charListLt_connex : ∀ as bs : List Char,
    charListLt as bs = false → charListLt bs as = false → as = bs
  | [], [], _, _ => rfl
  | [], _ :: _, h1, _ => by simp [charListLt] at h1
  | _ :: _, [], _, h2 => by simp [charListLt] at h2
  | a :: as, b :: bs, h1, h2 => by
    have h1' : ¬ (a < b ∨ (a = b ∧ charListLt as bs = true)) := by
      rw [← charListLt_cons_iff]; simp [h1]
    have h2' : ¬ (b < a ∨ (b = a ∧ charListLt bs as = true)) := by
      rw [← charListLt_cons_iff]; simp [h2]
    push_neg at h1' h2'
    have heq : a = b := le_antisymm h2'.1 h1'.1
    subst heq
    have e1 : charListLt as bs = false := by
      cases hx : charListLt as bs
      · rfl
      · exact absurd hx (h1'.2 rfl)
    have e2 : charListLt bs as = false := by
      cases hx : charListLt bs as
      · rfl
      · exact absurd hx (h2'.2 rfl)
    rw [charListLt_connex as bs e1 e2]

instance : IsTotal String strLe :=
  ⟨fun a b => by
    unfold strLe
    cases h : charListLt a.data b.data
    · exact Or.inr rfl
    · exact Or.inl (charListLt_asymm _ _ h)⟩

instance : IsTrans String strLe :=
  ⟨fun a b c hab hbc => by
    unfold strLe at hab hbc ⊢
    cases h : charListLt c.data a.data
    · rfl
    · exfalso
      cases hbc2 : charListLt b.data c.data
      · have e : c.data = b.data := charListLt_connex _ _ hbc hbc2
        rw [e, hab] at h
        exact Bool.noConfusion h
      · have := charListLt_trans _ _ _ hbc2 h
        rw [this] at hab
        exact Bool.noConfusion hab⟩

theorem foldl_add_eq (l : List Int) : ∀ a : Int, l.foldl (· + ·) a = a + l.sum := by
  induction l with
  | nil => intro a; simp
  | cons x xs ih =>
    intro a
    simp only [List.foldl_cons, List.sum_cons, ih (a + x)]
    ring

theorem seriesSum_eq_sum (l : List Int) : seriesSum l = l.sum := by
  simpa [seriesSum] using foldl_add_eq l 0

theorem mem_uniqueAux (l : List String) :
    ∀ (seen : List String) (a : String),
      a ∈ uniqueAux seen l ↔ a ∈ l ∧ a ∉ seen := by
  induction l with
  | nil => intro seen a; simp [uniqueAux]
  | cons x xs ih =>
    intro seen a
    by_cases hx : x ∈ seen
    · rw [uniqueAux, if_pos hx, ih]
      constructor
      · rintro ⟨h1, h2⟩; exact ⟨List.mem_cons_of_mem _ h1, h2⟩
      · rintro ⟨h1, h2⟩
        rcases List.mem_cons.mp h1 with h1 | h1
        · exact absurd (h1 ▸ hx) h2
        · exact ⟨h1, h2⟩
    · rw [uniqueAux, if_neg hx]
      by_cases hax : a = x
      · subst hax; simp [hx]
      · simp only [List.mem_cons, hax, false_or, ih (x :: seen) a]

theorem mem_uniqueVals (l : List String) (a : String) :
    a ∈ uniqueVals l ↔ a ∈ l := by
  rw [uniqueVals, mem_uniqueAux]
  simp

theorem nodup_uniqueAux (l : List String) :
    ∀ seen : List String, (uniqueAux seen l).Nodup := by
  induction l with
  | nil => intro seen; simp [uniqueAux]
  | cons x xs ih =>
    intro seen
    by_cases hx : x ∈ seen
    · rw [uniqueAux, if_pos hx]; exact ih seen
    · rw [uniqueAux, if_neg hx]
      refine List.nodup_cons.mpr ⟨fun hmem => ?_, ih (x :: seen)⟩
      exact ((mem_uniqueAux xs (x :: seen) x).mp hmem).2 (List.mem_cons_self x seen)

theorem nodup_uniqueVals (l : List String) : (uniqueVals l).Nodup :=
  nodup_uniqueAux l []

theorem mem_filteredRows (d : Dataset) (selHari selKat : List String) (r : Row) :
    r ∈ filteredRows d selHari selKat ↔
      r ∈ d.rows ∧ r.hari ∈ selHari ∧
        (d.hasKategori = false ∨ r.kategori ∈ selKat) := by
  unfold filteredRows
  cases h : d.hasKategori <;>
    simp [List.mem_filter, and_assoc, h, and_comm]

theorem filteredRows_sublist (d : Dataset) (selHari selKat : List String) :
    (filteredRows d selHari selKat).Sublist d.rows := by
  unfold filteredRows
  cases h : d.hasKategori <;> simp only [if_pos, if_neg, Bool.false_eq_true]
  · exact List.filter_sublist _
  · exact (List.filter_sublist _).trans (List.filter_sublist _)

/-! ## Claim C1 -/

/-- Claim C1: for every dataset and every filter selection, the filtered
rows are exactly those rows whose day value is in `selHari` and, when the
category column is present, whose category value is in `selKat`; and the
filtered rows are a subsequence of the dataset (no duplication, original
order preserved). -/
theorem filteredRows_spec (d : Dataset) (selHari selKat : List String) :
    (filteredRows d selHari selKat).Sublist d.rows ∧
      ∀ r : Row, r ∈ filteredRows d selHari selKat ↔
        r ∈ d.rows ∧ r.hari ∈ selHari ∧
          (d.hasKategori = false ∨ r.kategori ∈ selKat) :=
  ⟨filteredRows_sublist d selHari selKat,
   mem_filteredRows d selHari selKat⟩

/-! ## Claim C5 -/

/-- Claim C5: with no file uploaded, the resolver returns the fixed
built-in dataset: the category column is present and the seven rows carry
exactly the literal sample values. -/
theorem resolve_none_sample :
    (resolve none).hasKategori = true ∧
    (resolve none).rows.length = 7 ∧
    (resolve none).rows.map (·.hari) =
      ["Senin", "Selasa", "Rabu", "Kamis", "Jumat", "Sabtu", "Minggu"] ∧
    (resolve none).rows.map (·.kategori) =
      ["Makanan", "Minuman", "Makanan", "Minuman", "Makanan", "Minuman",
       "Makanan"] ∧
    (resolve none).rows.map (·.penjualan) = [120, 150, 90, 170, 200, 220, 180] ∧
    (resolve none).rows.map (·.pengunjung) = [50, 60, 30, 80, 90, 120, 100] := by
  refine ⟨rfl, rfl, rfl, rfl, rfl, rfl⟩

/-! ## Claim C6 -/

/-- Claim C6: an empty day selection is not an error: the filtered result is
empty, both totals are 0, and both means are the undefined value (pandas
NaN, modelled `none`) rather than an exception. -/
theorem empty_selection_spec (d : Dataset) (selKat : List String) :
    filteredRows d [] selKat = [] ∧
    total_sales (filteredRows d [] selKat) = 0 ∧
    total_visitors (filteredRows d [] selKat) = 0 ∧
    avg_sales (filteredRows d [] selKat) = none ∧
    avg_visitors (filteredRows d [] selKat) = none := by
  have hempty : filteredRows d [] selKat = [] := by
    unfold filteredRows
    cases h : d.hasKategori <;> simp
  refine ⟨hempty, ?_, ?_, ?_, ?_⟩ <;>
    simp [hempty, total_sales, total_visitors, avg_sales, avg_visitors,
      seriesSum, seriesMean]

/-! ## Claim C2 -/

/-- Claim C2: for every filtered row set, `total_sales` is the sum of the
Penjualan column and `total_visitors` the sum of the Pengunjung column;
when the row count is positive, each mean is the corresponding total
divided by the count. -/
theorem summary_spec (rows : List Row) :
    total_sales rows = (rows.map (·.penjualan)).sum ∧
    total_visitors rows = (rows.map (·.pengunjung)).sum ∧
    (0 < rows.length →
      avg_sales rows = some ((total_sales rows : ℚ) / (rows.length : ℚ)) ∧
      avg_visitors rows =
        some ((total_visitors rows : ℚ) / (rows.length : ℚ))) := by
  refine ⟨seriesSum_eq_sum _, seriesSum_eq_sum _, fun hpos => ⟨?_, ?_⟩⟩ <;>
    simp [avg_sales, avg_visitors, seriesMean, total_sales, total_visitors,
      Nat.pos_iff_ne_zero.mp hpos]

/-- Witness for C2: the hypotheses of `summary_spec` discharged on the
built-in sample rows. -/
theorem summary_spec_witness :
    0 < (resolve none).rows.length ∧
    avg_sales (resolve none).rows =
      some ((total_sales (resolve none).rows : ℚ) /
        ((resolve none).rows.length : ℚ)) ∧
    avg_visitors (resolve none).rows =
      some ((total_visitors (resolve none).rows : ℚ) /
        ((resolve none).rows.length : ℚ)) :=
  ⟨by decide, ((summary_spec (resolve none).rows).2.2 (by decide)).1,
   ((summary_spec (resolve none).rows).2.2 (by decide)).2⟩

/-! ## Claim C10 -/

/-- Claim C10: the default filter selection consists of the distinct day
values and the distinct category values of the loaded dataset, and under
this default selection the filter is the identity: the filtered rows are
the whole dataset. -/
theorem default_selection_identity (d : Dataset) :
    (∀ a, a ∈ hariList d ↔ a ∈ d.rows.map (·.hari)) ∧
    (∀ a, a ∈ kategoriList d ↔ a ∈ d.rows.map (·.kategori)) ∧
    filteredRows d (hariList d) (kategoriList d) = d.rows := by
  refine ⟨fun a => mem_uniqueVals _ a, fun a => mem_uniqueVals _ a, ?_⟩
  have h1 : d.rows.filter (fun r => decide (r.hari ∈ hariList d)) = d.rows := by
    refine List.filter_eq_self.mpr fun r hr => ?_
    simp only [decide_eq_true_eq, hariList, mem_uniqueVals]
    exact List.mem_map_of_mem _ hr
  have h2 : d.rows.filter (fun r => decide (r.kategori ∈ kategoriList d)) =
      d.rows := by
    refine List.filter_eq_self.mpr fun r hr => ?_
    simp only [decide_eq_true_eq, kategoriList, mem_uniqueVals]
    exact List.mem_map_of_mem _ hr
  unfold filteredRows
  cases h : d.hasKategori <;> simp [h1, h2]

/-! ## Claim C7 -/

/-- Claim C7: on the built-in sample dataset with the default (full)
selections, the pipeline yields total sales 1130, total visitors 530, a
sales mean within rounding distance of 161.43 and a visitor mean within
rounding distance of 75.71. -/
theorem sample_full_selection_kpi :
    total_sales (filteredRows (resolve none) (hariList (resolve none))
        (kategoriList (resolve none))) = 1130 ∧
    total_visitors (filteredRows (resolve none) (hariList (resolve none))
        (kategoriList (resolve none))) = 530 ∧
    (∃ q : ℚ, avg_sales (filteredRows (resolve none) (hariList (resolve none))
        (kategoriList (resolve none))) = some q ∧ |q - 16143/100| < 1/200) ∧
    (∃ q : ℚ, avg_visitors (filteredRows (resolve none)
        (hariList (resolve none)) (kategoriList (resolve none))) = some q ∧
      |q - 7571/100| < 1/200) := by
  have hrows : filteredRows (resolve none) (hariList (resolve none))
      (kategoriList (resolve none)) = (resolve none).rows := by decide
  rw [hrows]
  refine ⟨by decide, by decide, ⟨1130/7, ?_, ?_⟩, ⟨530/7, ?_, ?_⟩⟩
  · simp [avg_sales, seriesMean, seriesSum, resolve, load_sample_data]
  · rw [abs_lt]; constructor <;> norm_num
  · simp [avg_visitors, seriesMean, seriesSum, resolve, load_sample_data]
  · rw [abs_lt]; constructor <;> norm_num

/-! ## Claim C3 -/

theorem pieDf_keys (rows : List Row) :
    (pieDf rows).map Prod.fst =
      List.insertionSort strLe (uniqueVals (rows.map (·.kategori))) := by
  simp [pieDf, List.map_map, Function.comp_def]

/-- Claim C3 (amended): when the category column is present, the pie
grouping is attached to the output, maps each category value occurring in
the filtered rows (and no other key, each key once) to the sum of the
Penjualan column over the filtered rows with that category — but its keys
appear in ascending lexicographic order of the category value (pandas
`groupby` sorts its keys by default), not in insertion order of first
occurrence in the filtered sequence. -/
theorem pieDf_spec (d : Dataset) (selHari selKat : List String)
    (hk : d.hasKategori = true) :
    (runPipeline d (selHari, selKat)).pie =
      some (pieDf (filteredRows d selHari selKat)) ∧
    ((pieDf (filteredRows d selHari selKat)).map Prod.fst).Nodup ∧
    List.Sorted strLe ((pieDf (filteredRows d selHari selKat)).map Prod.fst) ∧
    (∀ k, k ∈ (pieDf (filteredRows d selHari selKat)).map Prod.fst ↔
      k ∈ (filteredRows d selHari selKat).map (·.kategori)) ∧
    (∀ p ∈ pieDf (filteredRows d selHari selKat),
      p.2 = (((filteredRows d selHari selKat).filter
        (fun r => decide (r.kategori = p.1))).map (·.penjualan)).sum) := by
  refine ⟨by simp [runPipeline, hk], ?_, ?_, ?_, ?_⟩
  · rw [pieDf_keys]
    exact ((List.perm_insertionSort strLe _).nodup_iff).mpr
      (nodup_uniqueVals _)
  · rw [pieDf_keys]
    exact List.sorted_insertionSort strLe _
  · intro k
    rw [pieDf_keys, (List.perm_insertionSort strLe _).mem_iff,
      mem_uniqueVals]
  · intro p hp
    rcases List.mem_map.mp hp with ⟨k, _, rfl⟩
    exact seriesSum_eq_sum _

/-- Witness for C3: the amended claim applied to the built-in sample
dataset, whose category column is present. -/
theorem pieDf_spec_witness :
    (resolve none).hasKategori = true ∧
    (runPipeline (resolve none)
        (hariList (resolve none), kategoriList (resolve none))).pie =
      some (pieDf (filteredRows (resolve none) (hariList (resolve none))
        (kategoriList (resolve none)))) :=
  ⟨rfl, (pieDf_spec (resolve none) (hariList (resolve none))
    (kategoriList (resolve none)) rfl).1⟩

/-- Counterexample to C3 as stated: on a dataset whose first filtered row
has category "Minuman" and second "Makanan", the group keys come out
sorted — ["Makanan", "Minuman"] — which differs from the insertion order
of first occurrence ["Minuman", "Makanan"] that the claim asserts. -/
theorem pieDf_insertion_order_counterexample :
    (pieDf (filteredRows swappedSample (hariList swappedSample)
        (kategoriList swappedSample))).map Prod.fst = ["Makanan", "Minuman"] ∧
    uniqueVals ((filteredRows swappedSample (hariList swappedSample)
        (kategoriList swappedSample)).map (·.kategori)) =
      ["Minuman", "Makanan"] ∧
    (pieDf (filteredRows swappedSample (hariList swappedSample)
        (kategoriList swappedSample))).map Prod.fst ≠
      uniqueVals ((filteredRows swappedSample (hariList swappedSample)
        (kategoriList swappedSample)).map (·.kategori)) :=
  ⟨by decide, by decide, by decide⟩

/-! ## Claim C8 -/

theorem splitOnChar_ne_nil (c : Char) : ∀ l : List Char, splitOnChar c l ≠ []
  | [] => by simp [splitOnChar]
  | x :: xs => by
    by_cases hx : x = c
    · simp [splitOnChar, hx]
    · simp only [splitOnChar, hx, if_false]
      cases h : splitOnChar c xs <;> simp

theorem splitOnChar_append (c : Char) :
    ∀ xs : List Char, c ∉ xs → ∀ rest : List Char,
      splitOnChar c (xs ++ c :: rest) = xs :: splitOnChar c rest
  | [], _, rest => by simp [splitOnChar]
  | x :: xs, h, rest => by
    have hx : x ≠ c := fun hxc => h (hxc ▸ List.mem_cons_self x xs)
    have hxs : c ∉ xs := fun hc => h (List.mem_cons_of_mem x hc)
    simp only [List.cons_append, splitOnChar, hx, if_false, List.append_eq,
      splitOnChar_append c xs hxs rest]

theorem parseLines_toCsvBody :
    ∀ rows : List Row, (∀ r ∈ rows, rowOk r) →
      parseLines (splitOnChar '\n' (toCsvBody rows)) = some rows
  | [], _ => by simp [toCsvBody, splitOnChar, parseLines]
  | r :: rs, h => by
    have hr : rowOk r := h r (List.mem_cons_self r rs)
    have hrs : ∀ x ∈ rs, rowOk x := fun x hx => h x (List.mem_cons_of_mem r hx)
    rw [toCsvBody, splitOnChar_append '\n' (rowLine r) hr.2]
    cases h2 : splitOnChar '\n' (toCsvBody rs) with
    | nil => exact absurd h2 (splitOnChar_ne_nil '\n' _)
    | cons l2 ls =>
      have ih := parseLines_toCsvBody rs hrs
      rw [h2] at ih
      rw [parseLines, hr.1, ih]
      rfl

/-- CSV round trip for any list of rows that render cleanly (fields without
separators, numerals that re-parse). -/
theorem read_csv_to_csv (rows : List Row) (h : ∀ r ∈ rows, rowOk r) :
    read_csv (to_csv rows) = some rows := by
  have hdata : (to_csv rows).data = csvHeader ++ '\n' :: toCsvBody rows := rfl
  simp only [read_csv, hdata, splitOnChar_append '\n' csvHeader (by decide),
    ite_true]
  exact parseLines_toCsvBody rows h

/-- Claim C8: for the sample dataset fixture and any filter selection,
exporting the filtered rows to CSV text and re-parsing that text yields
exactly the filtered rows again. -/
theorem csv_roundtrip (selHari selKat : List String) :
    read_csv (to_csv (filteredRows (resolve none) selHari selKat)) =
      some (filteredRows (resolve none) selHari selKat) := by
  have hsample : ∀ r ∈ (resolve none).rows, rowOk r := by decide
  exact read_csv_to_csv _ fun r hr =>
    hsample r ((mem_filteredRows (resolve none) selHari selKat r).mp hr).1

/-! ## Claim C9 -/

/-- Claim C9: the pipeline never mutates the loaded dataset.  Every
interaction of a session reruns the pipeline on the dataset resolved from
the original upload: the i-th output is the pipeline applied to the
original dataset and the i-th selection (independent of all earlier
selections), every output's filtered rows are a subsequence of the
original rows, and prepending an interaction leaves the results of the
later interactions unchanged. -/
theorem no_mutation_spec (uploaded : Option Dataset)
    (sels : List (List String × List String)) :
    (∀ i : Nat, (session uploaded sels)[i]? =
      (sels[i]?).map fun s => runPipeline (resolve uploaded) s) ∧
    (∀ o ∈ session uploaded sels,
      o.filtered.Sublist (resolve uploaded).rows) ∧
    (∀ (s : List String × List String) sels2,
      session uploaded (s :: sels2) =
        runPipeline (resolve uploaded) s :: session uploaded sels2) := by
  refine ⟨fun i => by simp [session], ?_, fun s sels2 => rfl⟩
  intro o ho
  rcases List.mem_map.mp ho with ⟨s, _, rfl⟩
  exact filteredRows_sublist (resolve uploaded) s.1 s.2

/-- Witness for C9: a one-interaction session over the sample dataset. -/
theorem no_mutation_spec_witness :
    (session none [([], [])])[0]? =
      some (runPipeline (resolve none) ([], [])) ∧
    (runPipeline (resolve none) ([], [])).filtered.Sublist
      (resolve none).rows :=
  ⟨by simpa using (no_mutation_spec none [([], [])]).1 0,
   (no_mutation_spec none [([], [])]).2.1 _ (by simp [session])⟩

/-! ## Claim C4 -/

theorem colIdx_eq_none (c : String) :
    ∀ l : List String, c ∉ l → colIdx l c = none
  | [], _ => rfl
  | h :: t, hmem => by
    have h1 : h ≠ c := fun e => hmem (e ▸ List.mem_cons_self h t)
    have h2 : c ∉ t := fun hc => hmem (List.mem_cons_of_mem h hc)
    simp [colIdx, h1, colIdx_eq_none c t h2]

theorem colIdx_isSome (c : String) :
    ∀ l : List String, c ∈ l → ∃ i, colIdx l c = some i
  | [], h => absurd h (List.not_mem_nil c)
  | h0 :: t, hmem => by
    by_cases he : h0 = c
    · exact ⟨0, by simp [colIdx, he]⟩
    · have hct : c ∈ t := by
        rcases List.mem_cons.mp hmem with h | h
        · exact absurd h.symm he
        · exact h
      obtain ⟨i, hi⟩ := colIdx_isSome c t hct
      exact ⟨i + 1, by simp [colIdx, he, hi]⟩

theorem except_bind_ok {α β : Type} (a : α)
    (k : α → Except AppError β) : (Except.ok a >>= k) = k a := rfl

theorem except_bind_error {α β : Type} (e : AppError)
    (k : α → Except AppError β) :
    ((Except.error e : Except AppError α) >>= k) = Except.error e := rfl

/-- Claim C4: a required column (Hari, Penjualan, Pengunjung) missing from
an uploaded frame makes the rerun fail with a `KeyError` naming that
column — a missing-column signal distinct from a parse failure — rather
than silently defaulting; a missing Kategori column is not an error: any
successful rerun on such a frame simply omits the pie grouping. -/
theorem missing_column_spec (f : RawFrame) (selHari selKat : List String) :
    ("Hari" ∉ f.header →
      runRaw f selHari selKat = .error (.keyError "Hari")) ∧
    ("Hari" ∈ f.header → "Penjualan" ∉ f.header →
      runRaw f selHari selKat = .error (.keyError "Penjualan")) ∧
    ("Hari" ∈ f.header → "Penjualan" ∈ f.header → "Pengunjung" ∉ f.header →
      runRaw f selHari selKat = .error (.keyError "Pengunjung")) ∧
    (∀ c, (Except.error (AppError.keyError c) : Except AppError RawOut) ≠
      Except.error AppError.parseError) ∧
    ("Kategori" ∉ f.header → ∀ out : RawOut,
      runRaw f selHari selKat = .ok out → out.pie = none) := by
  refine ⟨?_, ?_, ?_, ?_, ?_⟩
  · intro hH
    have hcol : colIdx f.header "Hari" = none := colIdx_eq_none _ _ hH
    simp [runRaw, getColVals, hcol, except_bind_error]
  · intro hH hP
    obtain ⟨i, hi⟩ := colIdx_isSome "Hari" f.header hH
    have hcolP : colIdx f.header "Penjualan" = none := colIdx_eq_none _ _ hP
    by_cases hK : "Kategori" ∈ f.header
    · obtain ⟨j, hj⟩ := colIdx_isSome "Kategori" f.header hK
      simp [runRaw, getColVals, filterFrame, hi, hj, hcolP, hK,
        except_bind_ok, except_bind_error]
    · simp [runRaw, getColVals, filterFrame, hi, hcolP, hK,
        except_bind_ok, except_bind_error]
  · intro hH hP hG
    obtain ⟨i, hi⟩ := colIdx_isSome "Hari" f.header hH
    obtain ⟨p, hp⟩ := colIdx_isSome "Penjualan" f.header hP
    have hcolG : colIdx f.header "Pengunjung" = none := colIdx_eq_none _ _ hG
    by_cases hK : "Kategori" ∈ f.header
    · obtain ⟨j, hj⟩ := colIdx_isSome "Kategori" f.header hK
      simp [runRaw, getColVals, filterFrame, hi, hj, hp, hcolG, hK,
        except_bind_ok, except_bind_error]
    · simp [runRaw, getColVals, filterFrame, hi, hp, hcolG, hK,
        except_bind_ok, except_bind_error]
  · intro c h
    injection h with h2
    exact AppError.noConfusion h2
  · intro hK out hout
    simp only [runRaw, hK, if_false] at hout
    cases h1 : getColVals f "Hari" with
    | error e => rw [h1, except_bind_error] at hout; exact Except.noConfusion hout
    | ok v1 =>
      rw [h1, except_bind_ok] at hout
      cases h2 : filterFrame f "Hari" selHari with
      | error e => rw [h2, except_bind_error] at hout; exact Except.noConfusion hout
      | ok f1 =>
        rw [h2, except_bind_ok, except_bind_ok] at hout
        cases h3 : getColVals f1 "Penjualan" with
        | error e => rw [h3, except_bind_error] at hout; exact Except.noConfusion hout
        | ok pCol =>
          rw [h3, except_bind_ok] at hout
          cases h4 : getColVals f1 "Pengunjung" with
          | error e => rw [h4, except_bind_error] at hout; exact Except.noConfusion hout
          | ok gCol =>
            rw [h4, except_bind_ok] at hout
            cases h5 : sumColE pCol with
            | error e => rw [h5, except_bind_error] at hout; exact Except.noConfusion hout
            | ok ts =>
              rw [h5, except_bind_ok] at hout
              cases h6 : sumColE gCol with
              | error e => rw [h6, except_bind_error] at hout; exact Except.noConfusion hout
              | ok tv =>
                rw [h6, except_bind_ok] at hout
                cases h7 : meanColE pCol with
                | error e => rw [h7, except_bind_error] at hout; exact Except.noConfusion hout
                | ok avs =>
                  rw [h7, except_bind_ok] at hout
                  cases h8 : meanColE gCol with
                  | error e => rw [h8, except_bind_error] at hout; exact Except.noConfusion hout
                  | ok avv =>
                    rw [h8, except_bind_ok, except_bind_ok] at hout
                    have : RawOut.mk f1 ts tv avs avv none = out :=
                      Except.ok.inj hout
                    rw [← this]

/-- Witness for C4: a frame without a Hari column fails with
`KeyError("Hari")`, and a frame with the three required columns but no
Kategori column reruns successfully with the pie grouping omitted. -/
theorem missing_column_spec_witness :
    runRaw ⟨["Kategori", "Penjualan", "Pengunjung"], []⟩ [] [] =
      .error (.keyError "Hari") ∧
    runRaw ⟨["Hari", "Penjualan", "Pengunjung"],
        [[.s "Senin", .n 120, .n 50]]⟩ [] [] =
      .ok ⟨⟨["Hari", "Penjualan", "Pengunjung"], []⟩, 0, 0, none, none,
        none⟩ ∧
    (RawOut.mk ⟨["Hari", "Penjualan", "Pengunjung"], []⟩ 0 0 none none
      none).pie = none := by
  have hok : runRaw ⟨["Hari", "Penjualan", "Pengunjung"],
      [[.s "Senin", .n 120, .n 50]]⟩ [] [] =
      .ok ⟨⟨["Hari", "Penjualan", "Pengunjung"], []⟩, 0, 0, none, none,
        none⟩ := by rfl
  exact ⟨(missing_column_spec ⟨["Kategori", "Penjualan", "Pengunjung"], []⟩
      [] []).1 (by decide), hok,
    (missing_column_spec ⟨["Hari", "Penjualan", "Pengunjung"],
      [[.s "Senin", .n 120, .n 50]]⟩ [] []).2.2.2.2 (by decide) _ hok⟩

end StreamlitDann
